import Mathlib

/-!
# Verification of the amake build engine core

Shallow embedding of the target dependency graph, staleness detection,
failure aggregation, target registration, toolchain capability probes and
diagnostic serialization of the `amake` repository
(`pymake/core/target.py`, `dan/make.py`, `dan/core/makefile.py`,
`dan/cxx/base_toolchain.py`, `dan/core/diagnostics.py`), together with
proofs of the specified properties.

Python exceptions are modelled with `Except PyErr`; file modification
times (`st_mtime` floats) are modelled as rationals.
-/

/-- Python exceptions that the embedded code can raise. -/
inductive PyErr where
  | attributeError  -- e.g. `None.exists()`
  | fileNotFound    -- e.g. `Path.stat()` on a missing file
deriving DecidableEq, Repr

/-- Result of evaluating a fragment of Python code: a value or a raised
exception. -/
abbrev PyResult (α : Type) := Except PyErr α

/-- Observable state of a path on disk: missing, or present with an
`st_mtime` timestamp. -/
inductive FileStat where
  | missing
  | present (mtime : ℚ)
deriving DecidableEq, Repr

/-- A member of a `Dependencies` set (`pymake/core/target.py`): either a
`FileDependency` (a path, carrying its on-disk state) or another `Target`
(carrying its `output` attribute — `none` models Python `None` — and its
own dependency set). -/
inductive Dep where
  | file (stat : FileStat)
  | target (output : Option FileStat) (deps : List Dep)

/-- Embedding of `Target.modification_time` (target.py:327-329):
`self.output.stat().st_mtime if self.output.exists() else 0.0`.
When `output` is `None`, `self.output.exists()` raises `AttributeError`. -/
def Target.modification_time : Option FileStat → PyResult ℚ
  | none => .error .attributeError
  | some .missing => .ok 0
  | some (.present m) => .ok m

/-- Embedding of `FileDependency.modification_time` (target.py:95-97):
`self.stat().st_mtime`; `stat` on a missing path raises
`FileNotFoundError`. -/
def FileDependency.modification_time : FileStat → PyResult ℚ
  | .missing => .error .fileNotFound
  | .present m => .ok m

/-- Embedding of `item.modification_time` for a `Dependencies` member: dispatches to
`FileDependency.modification_time` or `Target.modification_time`. -/
def Dep.modification_time : Dep → PyResult ℚ
  | .file st => FileDependency.modification_time st
  | .target out _ => Target.modification_time out

/-- Loop body of `Dependencies.modification_time` (target.py:73-80):
`t = 0.0; for item: mt = item.modification_time; if mt and mt > t: t = mt`.
`if mt` is Python truthiness on a float, i.e. `mt ≠ 0`. -/
def Dependencies.modification_time_loop : List Dep → ℚ → PyResult ℚ
  | [], t => .ok t
  | d :: ds, t => do
      let mt ← d.modification_time
      Dependencies.modification_time_loop ds (if mt ≠ 0 ∧ mt > t then mt else t)

/-- Embedding of `Dependencies.modification_time` (target.py:73-80). -/
def Dependencies.modification_time (ds : List Dep) : PyResult ℚ :=
  Dependencies.modification_time_loop ds 0

mutual

/-- Embedding of `item.up_to_date` for a `Dependencies` member: for a `FileDependency`
it is the class attribute `up_to_date = True` (target.py:90), for a
`Target` it is the `Target.up_to_date` property. -/
def Dep.up_to_date : Dep → PyResult Bool
  | .file _ => .ok true
  | .target out ds => Target.up_to_date out ds
termination_by d => (sizeOf d, 0)

/-- Embedding of `Dependencies.up_to_date` (target.py:66-71):
`for item: if not item.up_to_date: return False` then `return True`. -/
def Dependencies.up_to_date : List Dep → PyResult Bool
  | [] => .ok true
  | d :: ds => do
      let u ← d.up_to_date
      if u then Dependencies.up_to_date ds else .ok false
termination_by ds => (sizeOf ds, 0)

/-- Embedding of `Target.up_to_date` (target.py:331-339):
```
if self.output and not self.output.exists(): return False
elif not self.dependencies.up_to_date: return False
elif self.dependencies.modification_time > self.modification_time: return False
return True
```
A `None` output is falsy, so the first guard is skipped for file-less
targets and `self.modification_time` is then evaluated in the third
condition. -/
def Target.up_to_date (out : Option FileStat) (ds : List Dep) : PyResult Bool :=
  match out with
  | some .missing => .ok false
  | _ => do
      let du ← Dependencies.up_to_date ds
      if du = false then .ok false
      else do
        let dm ← Dependencies.modification_time ds
        let mt ← Target.modification_time out
        if dm > mt then .ok false else .ok true
termination_by (sizeOf ds, 1)

end

/-- Embedding of `self.output.exists()` as evaluated inside `Target.build`
(target.py:359): raises `AttributeError` when `output` is `None`. -/
def Target.output_exists : Option FileStat → PyResult Bool
  | none => .error .attributeError
  | some .missing => .ok false
  | some (.present _) => .ok true

/-- Outcome of one execution of the body of `Target.build`. -/
inductive BuildResult where
  | skipped  -- 'up to date !': build is a no-op
  | built    -- `__build__` hook executed in the build directory
deriving DecidableEq, Repr

/-- Body of `Target.build` (target.py:346-367) after dependency builds and
the `__prebuild__` hook: evaluate `self.up_to_date`; if true, report and
return; otherwise evaluate `self.output.exists()` (the `outdated !` log
guard) and run `__build__`. -/
def Target.build_phase (out : Option FileStat) (ds : List Dep) : PyResult BuildResult := do
  let u ← Target.up_to_date out ds
  if u then pure .skipped
  else do
    let _ ← Target.output_exists out
    pure .built

/-- The spec's staleness predicate, stated from its words for comparison
with `Target.up_to_date`: the target is up to date unless (1) the expected
output path does not exist, (2) some dependency reports not-up-to-date,
(3) the dependencies' modification time exceeds the target's own output
modification time, or (4) the options-changed timestamp exceeds the
output's modification time. Inputs are the summaries those conditions
read. -/
def Spec.up_to_date (output_present deps_up_to_date : Bool)
    (deps_mtime output_mtime options_mtime : ℚ) : Bool :=
  output_present && deps_up_to_date &&
    !(decide (output_mtime < deps_mtime)) && !(decide (output_mtime < options_mtime))

/-- An event in a cooperative (single event loop) schedule of concurrent
calls to one memoized phase of one Target: a caller invokes the phase
(`arrive`), or the single in-flight execution of the body finishes
(`complete`). -/
inductive PhaseEvent where
  | arrive (caller : ℕ)
  | complete
deriving DecidableEq, Repr

/-- Modelled from the spec: the `asyncio.cached` decorator (module
`pymake.core.asyncio`, not present in the sources) that wraps
`Target.preload/initialize/build/clean/install` — "a per-object
lazily-initialized future/promise: concurrent callers race to create it,
the first wins and executes, all await the same completion handle",
replaying the memoized outcome (re-raising a stored failure) to later
callers. `cache` holds the completed outcome, `running` says whether the
body is in flight, `waiters` the callers awaiting the shared future,
`execCount` how many times the body's side effects ran, and `observed`
which caller has observed which outcome. -/
structure CachedPhase (ε ρ : Type) where
  cache : Option (Except ε ρ)
  running : Bool
  waiters : List ℕ
  execCount : ℕ
  observed : List (ℕ × Except ε ρ)

/-- Modelled from the spec: initial state of a memoized phase — never
invoked, nothing cached. -/
def CachedPhase.init (ε ρ : Type) : CachedPhase ε ρ :=
  { cache := none, running := false, waiters := [], execCount := 0, observed := [] }

/-- Modelled from the spec: one scheduler step of the memoized phase whose
body's single execution yields outcome `o`. An arriving caller observes
the cached outcome if the phase completed, joins the waiters if it is in
flight, and otherwise starts the one execution (and awaits it); on
completion the outcome is cached and every waiter observes it. -/
def CachedPhase.step {ε ρ : Type} (o : Except ε ρ) (s : CachedPhase ε ρ) :
    PhaseEvent → CachedPhase ε ρ
  | .arrive i =>
    match s.cache with
    | some r => { s with observed := s.observed ++ [(i, r)] }
    | none =>
      if s.running then { s with waiters := s.waiters ++ [i] }
      else { s with running := true, waiters := [i], execCount := s.execCount + 1 }
  | .complete =>
    if s.running then
      { s with cache := some o, running := false, waiters := [],
               observed := s.observed ++ s.waiters.map (fun i => (i, o)) }
    else s

/-- Modelled from the spec: run a whole cooperative schedule of events
against one memoized phase. -/
def CachedPhase.run {ε ρ : Type} (o : Except ε ρ) (es : List PhaseEvent) : CachedPhase ε ρ :=
  es.foldl (CachedPhase.step o) (CachedPhase.init ε ρ)

/-- The callers that invoke the phase during a schedule, in arrival
order. -/
def PhaseEvent.arrivals (es : List PhaseEvent) : List ℕ :=
  es.filterMap (fun e => match e with | .arrive i => some i | .complete => none)

/-- Invariant of a memoized phase with body outcome `o` after the callers
in `arr` have invoked it: the cache only ever holds `o`; a completed phase
is not running; an idle phase has no waiters; the body ran exactly once as
soon as anyone arrived; every observation is `o`; and the callers that
have observed plus those still waiting are exactly the arrivals. -/
def CachedPhase.Inv {ε ρ : Type} (o : Except ε ρ) (arr : List ℕ) (s : CachedPhase ε ρ) : Prop :=
  (s.cache = none ∨ s.cache = some o) ∧
  (s.cache.isSome = true → s.running = false) ∧
  (s.running = false → s.waiters = []) ∧
  (s.execCount = if s.running || s.cache.isSome then 1 else 0) ∧
  ((s.running || s.cache.isSome) = !arr.isEmpty) ∧
  (∀ p ∈ s.observed, p.2 = o) ∧
  (s.observed.map Prod.fst ++ s.waiters = arr)

/-- Result of one `asyncio.gather`ed build task in `Make.build`
(dan/make.py:357, `return_exceptions=True`): the task's value or the
exception it raised, `ε` standing for Python exception objects. -/
abbrev TaskResult (ε ρ : Type) := Except ε ρ

/-- The error-collection loop of `Make.build` (dan/make.py:358-362):
`errors = list(); for result in results: if isinstance(result, Exception):
self._logger.exception(result); errors.append(result)`. Each failure is
logged at the moment it is collected, hence before anything is raised. -/
def Make.collect_errors {ε ρ : Type} (results : List (TaskResult ε ρ)) : List ε :=
  results.filterMap (fun r => match r with | .error e => some e | .ok _ => none)

/-- What `Make.build` raises after collecting results
(dan/make.py:363-367). -/
inductive MakeOutcome (ε : Type) where
  | success
  | single (e : ε)   -- `raise errors[0]`: the one failure, verbatim
  | aggregate        -- `raise RuntimeError('One or more targets failed, check log...')`
deriving DecidableEq, Repr

/-- Tail of `Make.build` (dan/make.py:352-367): gather all task results
(modelled from the spec for `dan.core.asyncio.gather`, not present in the
sources: with `return_exceptions=True` every scheduled task runs to
completion and contributes exactly one entry to `results`, a failing task
never cancelling its siblings), log-and-collect the failures in order,
then raise the single failure verbatim, or one aggregate failure when
several targets failed. `logged` is the sequence of failures passed to
`self._logger.exception`. -/
def Make.build_run {ε ρ : Type} (results : List (TaskResult ε ρ)) :
    List ε × MakeOutcome ε :=
  let errors := Make.collect_errors results
  (errors,
    match errors with
    | [] => .success
    | [e] => .single e
    | _ => .aggregate)

/-- A freshly instantiated Target as seen by `MakeFile.register`
(dan/core/makefile.py:50-63): a Python object identity (`oid`) and its
computed `fullname`. Two registrations of the same class produce distinct
identities. -/
structure TargetInst where
  oid : ℕ
  fullname : String
deriving DecidableEq, Repr

/-- The registration state touched by `MakeFile.register`: the class-level
`MakeFile.__target_fullnames` list and this makefile's `__targets` set
(modelled as a duplicate-free list keyed by object identity, Python's
default `__hash__`/`__eq__`). -/
structure MakeFileState where
  target_fullnames : List String
  targets : List TargetInst
deriving DecidableEq, Repr

/-- Embedding of `MakeFile.register` for a Target class (dan/core/makefile.py:50-57):
instantiate the class, append the instance's fullname to the class-level
registry and add the instance to the target set, then return. The
duplicate-name check present at lines 54-55 is commented out in the
source, so no name-based rejection happens. -/
def MakeFile.register (s : MakeFileState) (t : TargetInst) : MakeFileState :=
  { target_fullnames := s.target_fullnames ++ [t.fullname],
    targets := if t ∈ s.targets then s.targets else s.targets ++ [t] }

/-- The external C++ compiler invoked by capability probes, deterministic
within one run: exit code of compiling the given source text with the
given options and file extension. -/
def CompilerRc := String → List String → String → Int

/-- Process-spawning state of one `Toolchain` instance: how many compiler
processes its probes have spawned. -/
structure ToolchainProbeState where
  spawn_count : ℕ
deriving DecidableEq, Repr

/-- Embedding of `Toolchain.can_compile` (dan/cxx/base_toolchain.py:338-344): write the
source to a temporary file, `sync_run` the first compile command (one
process spawn, every call), and return `rc == 0`. The function neither
reads nor writes any cache. -/
def Toolchain.can_compile (rc : CompilerRc) (s : ToolchainProbeState)
    (source : String) (options : List String) (extension : String) :
    Bool × ToolchainProbeState :=
  (rc source options extension == 0, { spawn_count := s.spawn_count + 1 })

/-- Embedding of `Toolchain.has_include` (dan/cxx/base_toolchain.py:346-348): join
`#include` lines and delegate to `can_compile`. -/
def Toolchain.has_include (rc : CompilerRc) (s : ToolchainProbeState)
    (includes : List String) (options : List String) (extension : String) :
    Bool × ToolchainProbeState :=
  Toolchain.can_compile rc s
    (String.intercalate ("\n") (includes.map (fun inc => "#include " ++ inc)))
    options extension

/-- A JSON value, the codomain of `dataclasses_json` serialization. -/
inductive JValue where
  | null
  | str (s : String)
  | num (n : Int)
  | obj (fields : List (String × JValue))
  | arr (elems : List JValue)

namespace Diagnostics

/-- Embedding of `Severity` (dan/core/diagnostics.py:9-13): a string-valued enum with
members ERROR/WARNING/INFO/HINT. -/
inductive Severity where
  | error
  | warning
  | info
  | hint
deriving DecidableEq, Repr

/-- The string value of each `Severity` member, which is what it
serializes to. -/
def Severity.value : Severity → String
  | .error => "error"
  | .warning => "warning"
  | .info => "information"
  | .hint => "hint"

/-- Embedding of `Position` (dan/core/diagnostics.py:25-28). -/
structure Position where
  line : Int
  character : Int
deriving DecidableEq, Repr

/-- Embedding of `Range` (dan/core/diagnostics.py:30-33); the `end` field is named
`end_` because `end` is reserved in Lean. -/
structure Range where
  start : Position
  end_ : Position
deriving DecidableEq, Repr

/-- Embedding of `Uri` (dan/core/diagnostics.py:15-23). -/
structure Uri where
  scheme : String
  path : String
  fragment : String
deriving DecidableEq, Repr

/-- Embedding of `Location` (dan/core/diagnostics.py:36-39). -/
structure Location where
  uri : Uri
  range : Range
deriving DecidableEq, Repr

/-- Embedding of `RelatedInformation` (dan/core/diagnostics.py:42-45). -/
structure RelatedInformation where
  location : Location
  message : String
deriving DecidableEq, Repr

/-- Embedding of `Diagnostic.code`: Python `Optional[str|int]`. -/
inductive DiagCode where
  | str (s : String)
  | num (n : Int)
deriving DecidableEq, Repr

/-- Embedding of `Diagnostic` (dan/core/diagnostics.py:48-56). -/
structure Diagnostic where
  message : String
  range : Range
  severity : Severity
  code : Option DiagCode
  source : Option String
  related_information : Option (List RelatedInformation)
deriving DecidableEq, Repr

/-- Serialization of `Position` under `DataClassJsonMixin.to_dict`. -/
def Position.to_json (p : Position) : JValue :=
  .obj [("line", .num p.line), ("character", .num p.character)]

/-- Serialization of `Range`: `{start: ..., end: ...}`. -/
def Range.to_json (r : Range) : JValue :=
  .obj [("start", r.start.to_json), ("end", r.end_.to_json)]

/-- Serialization of `Uri`. -/
def Uri.to_json (u : Uri) : JValue :=
  .obj [("scheme", .str u.scheme), ("path", .str u.path), ("fragment", .str u.fragment)]

/-- Serialization of `Location`. -/
def Location.to_json (l : Location) : JValue :=
  .obj [("uri", l.uri.to_json), ("range", l.range.to_json)]

/-- Serialization of `RelatedInformation`. -/
def RelatedInformation.to_json (ri : RelatedInformation) : JValue :=
  .obj [("location", ri.location.to_json), ("message", .str ri.message)]

/-- Serialization of `Diagnostic.code` (`None` becomes JSON null). -/
def DiagCode.to_json : Option DiagCode → JValue
  | none => .null
  | some (.str s) => .str s
  | some (.num n) => .num n

/-- Serialization of `Diagnostic` under `dataclasses_json` with
`LetterCase.CAMEL` (dan/core/diagnostics.py:50): keys `message`, `range`,
`severity`, `code`, `source`, `relatedInformation`, matching the shape
required in the spec. -/
def Diagnostic.to_json (d : Diagnostic) : JValue :=
  .obj [("message", .str d.message),
        ("range", d.range.to_json),
        ("severity", .str d.severity.value),
        ("code", DiagCode.to_json d.code),
        ("source", match d.source with | none => .null | some s => .str s),
        ("relatedInformation",
          match d.related_information with
          | none => .null
          | some ris => .arr (ris.map RelatedInformation.to_json))]

/-- Parsing of a serialized `Position` (`dataclass_json.from_dict`). -/
def Position.parse : JValue → Option Position
  | .obj [("line", .num l), ("character", .num c)] => some ⟨l, c⟩
  | _ => none

/-- Parsing of a serialized `Range`. -/
def Range.parse : JValue → Option Range
  | .obj [("start", js), ("end", je)] => do
      let s ← Position.parse js
      let e ← Position.parse je
      some ⟨s, e⟩
  | _ => none

/-- Parsing of a serialized `Uri`. -/
def Uri.parse : JValue → Option Uri
  | .obj [("scheme", .str s), ("path", .str p), ("fragment", .str f)] => some ⟨s, p, f⟩
  | _ => none

/-- Parsing of a serialized `Severity` value: exactly the four member
strings are accepted. -/
def Severity.parse : JValue → Option Severity
  | .str ("error") => some .error
  | .str ("warning") => some .warning
  | .str ("information") => some .info
  | .str ("hint") => some .hint
  | _ => none

/-- Parsing of a serialized `Location`. -/
def Location.parse : JValue → Option Location
  | .obj [("uri", ju), ("range", jr)] => do
      let u ← Uri.parse ju
      let r ← Range.parse jr
      some ⟨u, r⟩
  | _ => none

/-- Parsing of a serialized `RelatedInformation`. -/
def RelatedInformation.parse : JValue → Option RelatedInformation
  | .obj [("location", jl), ("message", .str m)] => do
      let l ← Location.parse jl
      some ⟨l, m⟩
  | _ => none

/-- Parsing of a serialized list of `RelatedInformation`. -/
def RelatedInformation.parse_list : List JValue → Option (List RelatedInformation)
  | [] => some []
  | j :: js => do
      let ri ← RelatedInformation.parse j
      let ris ← RelatedInformation.parse_list js
      some (ri :: ris)

/-- Parsing of a serialized `Diagnostic.code`. -/
def DiagCode.parse : JValue → Option (Option DiagCode)
  | .null => some none
  | .str s => some (some (.str s))
  | .num n => some (some (.num n))
  | _ => none

/-- Parsing of a serialized `Diagnostic`. -/
def Diagnostic.parse : JValue → Option Diagnostic
  | .obj [("message", .str m), ("range", jr), ("severity", jsev),
          ("code", jc), ("source", jsrc), ("relatedInformation", jri)] => do
      let r ← Range.parse jr
      let sev ← Severity.parse jsev
      let c ← DiagCode.parse jc
      let src ← match jsrc with
        | .null => some none
        | .str s => some (some s)
        | _ => none
      let ri ← match jri with
        | .null => some none
        | .arr js => do
            let ris ← RelatedInformation.parse_list js
            some (some ris)
        | _ => none
      some ⟨m, r, sev, c, src, ri⟩
  | _ => none

end Diagnostics

/-! ## Helper lemmas -/

@[simp] theorem pyResult_bind_ok {α β : Type} (a : α) (f : α → PyResult β) :
    (Except.ok a : PyResult α) >>= f = f a := rfl

@[simp] theorem pyResult_bind_error {α β : Type} (e : PyErr) (f : α → PyResult β) :
    (Except.error e : PyResult α) >>= f = Except.error e := rfl

theorem foldl_max_init_le (qs : List ℚ) (t : ℚ) : t ≤ qs.foldl max t := by
  induction qs generalizing t with
  | nil => simp
  | cons q qs ih => exact le_trans (le_max_left t q) (ih (max t q))

theorem mem_le_foldl_max (qs : List ℚ) (t q : ℚ) (h : q ∈ qs) : q ≤ qs.foldl max t := by
  induction qs generalizing t with
  | nil => cases h
  | cons x xs ih =>
      rcases List.mem_cons.mp h with rfl | h
      · exact le_trans (le_max_right t q) (foldl_max_init_le xs (max t q))
      · exact ih (max t x) h

theorem foldl_max_le (qs : List ℚ) (t b : ℚ) (ht : t ≤ b) (h : ∀ q ∈ qs, q ≤ b) :
    qs.foldl max t ≤ b := by
  induction qs generalizing t with
  | nil => exact ht
  | cons x xs ih =>
      exact ih (max t x) (max_le ht (h x (List.mem_cons_self x xs)))
        (fun q hq => h q (List.mem_cons_of_mem x hq))

theorem modification_time_loop_eq (ds : List Dep) (qs : List ℚ)
    (h : List.Forall₂ (fun d q => d.modification_time = Except.ok q) ds qs) :
    ∀ t : ℚ, 0 ≤ t → Dependencies.modification_time_loop ds t = .ok (qs.foldl max t) := by
  induction h with
  | nil => intro t _; rfl
  | @cons d q ds qs hd _ ih =>
      intro t ht
      have harm : (if q ≠ 0 ∧ q > t then q else t) = max t q := by
        split_ifs with hc
        · exact (max_eq_right (le_of_lt hc.2)).symm
        · push_neg at hc
          rcases eq_or_ne q 0 with rfl | hq
          · exact (max_eq_left ht).symm
          · exact (max_eq_left (hc hq)).symm
      simp only [Dependencies.modification_time_loop, hd, pyResult_bind_ok, harm]
      exact ih (max t q) (le_trans ht (le_max_left t q))


/-! ## C7: Dependencies.modification_time -/

/-- C7: for every dependency set D, `Dependencies.modification_time(D)`
equals 0 when D is empty and otherwise equals the maximum of the members'
last-modified timestamps (each member yielding a non-negative timestamp,
`m` being the maximal one). -/
theorem dependencies_modification_time_max :
    Dependencies.modification_time [] = .ok 0 ∧
    ∀ (ds : List Dep) (qs : List ℚ) (m : ℚ),
      List.Forall₂ (fun d q => d.modification_time = Except.ok q) ds qs →
      (∀ q ∈ qs, 0 ≤ q) → m ∈ qs → (∀ q ∈ qs, q ≤ m) →
      Dependencies.modification_time ds = .ok m := by
  refine ⟨rfl, fun ds qs m hf hpos hmem hub => ?_⟩
  rw [Dependencies.modification_time, modification_time_loop_eq ds qs hf 0 le_rfl]
  have hle : qs.foldl max 0 ≤ m := foldl_max_le qs 0 m (hpos m hmem) hub
  have hge : m ≤ qs.foldl max 0 := mem_le_foldl_max qs 0 m hmem
  rw [le_antisymm hle hge]

/-- Witness for C7 at a concrete two-member dependency set. -/
theorem dependencies_modification_time_max_witness :
    Dependencies.modification_time [.file (.present 3), .file (.present 1)] = .ok 3 :=
  dependencies_modification_time_max.2 [.file (.present 3), .file (.present 1)] [3, 1] 3
    (by constructor
        · rfl
        · constructor
          · rfl
          · constructor)
    (by norm_num) (by norm_num) (by norm_num)

/-! ## C9: FileDependency.up_to_date is constantly True -/

/-- C9: a `FileDependency`'s `up_to_date` is the class constant `True`,
whatever the state of the backing file, so a dependency set made of file
dependencies always passes the up-to-date conjunction — a changed file can
influence rebuild decisions only through the modification-time
comparison. -/
theorem file_dependency_up_to_date_constant :
    (∀ st : FileStat, Dep.up_to_date (.file st) = .ok true) ∧
    (∀ ds : List Dep, (∀ d ∈ ds, ∃ st, d = .file st) →
      Dependencies.up_to_date ds = .ok true) := by
  constructor
  · intro st; simp [Dep.up_to_date]
  · intro ds h
    induction ds with
    | nil => simp [Dependencies.up_to_date]
    | cons d ds ih =>
        obtain ⟨st, rfl⟩ := h d (List.mem_cons_self d ds)
        simp [Dependencies.up_to_date, Dep.up_to_date]
        exact ih (fun d hd => h d (List.mem_cons_of_mem _ hd))

/-- Witness for C9: a missing file and a freshly-modified file are both
"up to date". -/
theorem file_dependency_up_to_date_constant_witness :
    Dependencies.up_to_date [.file .missing, .file (.present 5)] = .ok true :=
  file_dependency_up_to_date_constant.2 [.file .missing, .file (.present 5)]
    (by intro d hd
        rcases List.mem_cons.mp hd with rfl | hd
        · exact ⟨.missing, rfl⟩
        · rcases List.mem_cons.mp hd with rfl | hd
          · exact ⟨.present 5, rfl⟩
          · cases hd)

/-! ## C10: modification time of a never-built target -/

/-- C10: a Target whose output path is set but whose output file does not
exist has `modification_time` exactly 0.0, so any dependency set with a
positive modification time compares strictly newer than the target. -/
theorem modification_time_never_built :
    Target.modification_time (some .missing) = .ok 0 ∧
    ∀ (ds : List Dep) (dm : ℚ), Dependencies.modification_time ds = .ok dm → 0 < dm →
      ∃ mt : ℚ, Target.modification_time (some .missing) = .ok mt ∧ mt < dm := by
  exact ⟨rfl, fun ds dm _ hpos => ⟨0, rfl, hpos⟩⟩

/-- Witness for C10 at a dependency set holding one existing artifact. -/
theorem modification_time_never_built_witness :
    ∃ mt : ℚ, Target.modification_time (some .missing) = .ok mt ∧ mt < 3 :=
  modification_time_never_built.2 [.file (.present 3)] 3
    (by simp [Dependencies.modification_time, Dependencies.modification_time_loop,
          Dep.modification_time, FileDependency.modification_time])
    (by norm_num)

/-! ## C4: file-less targets (code bug) -/

/-- C4 (code bug): for a file-less Target (`output is None`, here with an
empty dependency set, and also with a stale dependency), evaluating
`up_to_date` and running the build phase does NOT complete without error:
`Target.modification_time` evaluates `None.exists()` and raises
`AttributeError`, and so does the `self.output.exists()` guard inside
`Target.build`. -/
theorem file_less_target_raises :
    Target.up_to_date none [] = .error .attributeError ∧
    Target.build_phase none [] = .error .attributeError ∧
    Target.build_phase none [.target (some .missing) []] = .error .attributeError := by
  refine ⟨?_, ?_, ?_⟩
  · simp [Target.up_to_date, Dependencies.up_to_date, Dependencies.modification_time,
      Dependencies.modification_time_loop, Target.modification_time]
  · simp [Target.build_phase, Target.up_to_date, Dependencies.up_to_date,
      Dependencies.modification_time, Dependencies.modification_time_loop,
      Target.modification_time, Target.output_exists]
  · simp [Target.build_phase, Target.up_to_date, Dependencies.up_to_date, Dep.up_to_date,
      Dependencies.modification_time, Dependencies.modification_time_loop,
      Target.modification_time, Target.output_exists]

/-! ## C5: duplicate target registration -/

/-- C5 counterexample: registering two Targets with the same qualified
name `root.a` is not rejected — `MakeFile.register` returns normally and
both instances are kept, the duplicate fullname recorded twice. -/
theorem register_duplicate_counterexample :
    (MakeFile.register (MakeFile.register ⟨[], []⟩ ⟨0, "root.a"⟩) ⟨1, "root.a"⟩).targets
      = [⟨0, "root.a"⟩, ⟨1, "root.a"⟩] ∧
    (MakeFile.register (MakeFile.register ⟨[], []⟩ ⟨0, "root.a"⟩) ⟨1, "root.a"⟩).target_fullnames
      = ["root.a", "root.a"] := by
  constructor <;> rfl

/-- C5 amended: registering a second Target with an already-registered
qualified name is accepted (the duplicate-name check is commented out):
both instances are kept in the target set and the shared fullname is
recorded once more. -/
theorem register_mem_self (s : MakeFileState) (t : TargetInst) :
    t ∈ (MakeFile.register s t).targets := by
  simp only [MakeFile.register]
  split_ifs with h
  · exact h
  · exact List.mem_append_right _ (List.mem_singleton.mpr rfl)

theorem register_mem_mono (s : MakeFileState) (u t : TargetInst) (h : t ∈ s.targets) :
    t ∈ (MakeFile.register s u).targets := by
  simp only [MakeFile.register]
  split_ifs with hu
  · exact h
  · exact List.mem_append_left _ h

theorem register_duplicate_kept (s : MakeFileState) (t1 t2 : TargetInst)
    (hname : t1.fullname = t2.fullname) :
    t1 ∈ (MakeFile.register (MakeFile.register s t1) t2).targets ∧
    t2 ∈ (MakeFile.register (MakeFile.register s t1) t2).targets ∧
    (MakeFile.register (MakeFile.register s t1) t2).target_fullnames.count t1.fullname
      = s.target_fullnames.count t1.fullname + 2 := by
  refine ⟨register_mem_mono _ t2 t1 (register_mem_self s t1), register_mem_self _ t2, ?_⟩
  simp only [MakeFile.register, List.count_append]
  rw [hname]
  simp [List.count_singleton]

/-- Witness for C5's amended statement at two concrete instances of the
same qualified name. -/
theorem register_duplicate_kept_witness :
    (⟨0, "root.a"⟩ : TargetInst) ∈
      (MakeFile.register (MakeFile.register ⟨[], []⟩ ⟨0, "root.a"⟩) ⟨1, "root.a"⟩).targets ∧
    (⟨1, "root.a"⟩ : TargetInst) ∈
      (MakeFile.register (MakeFile.register ⟨[], []⟩ ⟨0, "root.a"⟩) ⟨1, "root.a"⟩).targets ∧
    (MakeFile.register (MakeFile.register ⟨[], []⟩ ⟨0, "root.a"⟩)
        ⟨1, "root.a"⟩).target_fullnames.count ("root.a")
      = (⟨[], []⟩ : MakeFileState).target_fullnames.count ("root.a") + 2 :=
  register_duplicate_kept ⟨[], []⟩ ⟨0, "root.a"⟩ ⟨1, "root.a"⟩ rfl

/-! ## C6: capability probes are not cached -/

/-- C6 counterexample: two invocations of `Toolchain.can_compile` with
identical input spawn two compiler processes, not one — there is no
probe cache. -/
theorem can_compile_no_cache_counterexample :
    (Toolchain.can_compile (fun _ _ _ => 0) ⟨0⟩ "int x;" [] ".cpp").2.spawn_count = 1 ∧
    (Toolchain.can_compile (fun _ _ _ => 0)
        (Toolchain.can_compile (fun _ _ _ => 0) ⟨0⟩ "int x;" [] ".cpp").2
        "int x;" [] ".cpp").2.spawn_count = 2 :=
  ⟨rfl, rfl⟩

/-- C6 amended: `Toolchain.can_compile` recomputes every probe — each
invocation spawns exactly one compiler process, so two identical probes
cost two spawns; their results agree only because the external compiler is
deterministic within a run. -/
theorem can_compile_spawns_every_call (rc : CompilerRc) (s : ToolchainProbeState)
    (src : String) (opts : List String) (ext : String) :
    (Toolchain.can_compile rc s src opts ext).1
      = (Toolchain.can_compile rc (Toolchain.can_compile rc s src opts ext).2 src opts ext).1 ∧
    (Toolchain.can_compile rc (Toolchain.can_compile rc s src opts ext).2
        src opts ext).2.spawn_count = s.spawn_count + 2 :=
  ⟨rfl, rfl⟩


/-! ## C2: staleness conditions of Target.up_to_date -/

/-- C2 counterexample: a target with an existing output of modification
time 10, no dependencies, and an options-changed timestamp of 20. The four
spec conditions make it stale (condition 4 fires), but the code's
`Target.up_to_date` — which never consults the options timestamp —
reports it up to date. -/
theorem up_to_date_ignores_options_counterexample :
    Target.up_to_date (some (.present 10)) [] = .ok true ∧
    Dependencies.up_to_date [] = .ok true ∧
    Dependencies.modification_time [] = .ok 0 ∧
    Spec.up_to_date true true 0 10 20 = false := by
  refine ⟨?_, ?_, rfl, ?_⟩
  · simp [Target.up_to_date, Dependencies.up_to_date, Dependencies.modification_time,
      Dependencies.modification_time_loop, Target.modification_time]
  · simp [Dependencies.up_to_date]
  · simp [Spec.up_to_date]
    norm_num

/-- Unfolding of `Target.up_to_date` when the first guard does not fire
(the output is `None` or an existing path). -/
theorem target_up_to_date_default (out : Option FileStat) (ds : List Dep)
    (h : out ≠ some FileStat.missing) :
    Target.up_to_date out ds = (do
      let du ← Dependencies.up_to_date ds
      if du = false then Except.ok false
      else do
        let dm ← Dependencies.modification_time ds
        let mt ← Target.modification_time out
        if dm > mt then Except.ok false else Except.ok true) := by
  rcases out with _ | st
  · simp [Target.up_to_date]
  · cases st
    · exact absurd rfl h
    · simp [Target.up_to_date]

/-- C2 amended: whenever `Target.up_to_date` evaluates without raising, it
is false exactly when one of THREE conditions holds — the set output path
does not exist, some dependency reports not-up-to-date, or the
dependencies' modification time exceeds the target's own output
modification time. The options-changed timestamp is not consulted. -/
theorem up_to_date_three_conditions (out : Option FileStat) (ds : List Dep) (b : Bool)
    (h : Target.up_to_date out ds = .ok b) :
    b = false ↔
      (out = some .missing ∨ Dependencies.up_to_date ds = .ok false ∨
        ∃ dm mt : ℚ, Dependencies.modification_time ds = .ok dm ∧
          Target.modification_time out = .ok mt ∧ mt < dm) := by
  by_cases hmiss : out = some FileStat.missing
  · subst hmiss
    rw [Target.up_to_date] at h
    injection h with h
    subst h
    exact iff_of_true rfl (Or.inl rfl)
  · rw [target_up_to_date_default out ds hmiss] at h
    rcases hdu : Dependencies.up_to_date ds with e | du
    · rw [hdu] at h; simp at h
    · rw [hdu] at h
      simp only [pyResult_bind_ok] at h
      cases du
      · rw [if_pos rfl] at h
        injection h with h
        subst h
        exact iff_of_true rfl (Or.inr (Or.inl rfl))
      · rw [if_neg (by simp)] at h
        rcases hdm : Dependencies.modification_time ds with e | dm
        · rw [hdm] at h; simp at h
        · rw [hdm] at h
          simp only [pyResult_bind_ok] at h
          rcases hmt : Target.modification_time out with e | mt
          · rw [hmt] at h; simp at h
          · rw [hmt] at h
            simp only [pyResult_bind_ok] at h
            by_cases hlt : dm > mt
            · rw [if_pos hlt] at h
              injection h with h
              subst h
              exact iff_of_true rfl (Or.inr (Or.inr ⟨dm, mt, rfl, rfl, hlt⟩))
            · rw [if_neg hlt] at h
              injection h with h
              subst h
              apply iff_of_false (by simp)
              push_neg
              refine ⟨hmiss, by simp, ?_⟩
              intro dm' mt' hdm' hmt'
              injection hdm' with hdm'
              injection hmt' with hmt'
              subst hdm'
              subst hmt'
              exact not_lt.mp hlt

/-- Witness for C2's amended statement: a target with an existing output
older than a dependency is reported stale. -/
theorem up_to_date_three_conditions_witness :
    (false = false) ↔
      ((some (FileStat.present 1) : Option FileStat) = some .missing ∨
        Dependencies.up_to_date [.file (.present 4)] = .ok false ∨
        ∃ dm mt : ℚ, Dependencies.modification_time [.file (.present 4)] = .ok dm ∧
          Target.modification_time (some (FileStat.present 1)) = .ok mt ∧ mt < dm) :=
  up_to_date_three_conditions (some (.present 1)) [.file (.present 4)] false
    (by rw [target_up_to_date_default _ _ (by simp)]
        rw [show Dependencies.up_to_date [Dep.file (.present 4)] = .ok true from by
          simp [Dependencies.up_to_date, Dep.up_to_date]]
        rw [show Dependencies.modification_time [Dep.file (.present 4)] = .ok 4 from by
          norm_num [Dependencies.modification_time, Dependencies.modification_time_loop,
            Dep.modification_time, FileDependency.modification_time]]
        rw [show Target.modification_time (some (FileStat.present 1)) = .ok 1 from rfl]
        simp only [pyResult_bind_ok]
        rw [if_neg (by simp), if_pos (by norm_num)])

/-! ## C3: Make.build failure collection and aggregation -/

theorem collect_errors_length {ε ρ : Type} (rs : List (TaskResult ε ρ)) :
    (Make.collect_errors rs).length
      + (rs.filter (fun r => match r with | .ok _ => true | .error _ => false)).length
      = rs.length := by
  induction rs with
  | nil => rfl
  | cons r rs ih =>
      cases r with
      | ok a =>
          simp [Make.collect_errors, List.filterMap_cons, List.filter_cons] at *
          omega
      | error e =>
          simp [Make.collect_errors, List.filterMap_cons, List.filter_cons] at *
          omega

/-- C3: `Make.build` collects one result per scheduled target (no sibling
is dropped when others fail), logs every individual failure, and then: no
failure → success; exactly one failure → that exact failure object is
re-raised; two or more failures → one aggregate failure is raised, every
individual failure having been logged before it. -/
theorem make_build_failure_aggregation {ε ρ : Type} (rs : List (TaskResult ε ρ)) :
    ((Make.build_run rs).1 = Make.collect_errors rs) ∧
    (∀ e : ε, Except.error e ∈ rs → e ∈ (Make.build_run rs).1) ∧
    ((Make.build_run rs).1.length
        + (rs.filter (fun r => match r with | .ok _ => true | .error _ => false)).length
      = rs.length) ∧
    (Make.collect_errors rs = [] → (Make.build_run rs).2 = .success) ∧
    (∀ e : ε, Make.collect_errors rs = [e] → (Make.build_run rs).2 = .single e) ∧
    (2 ≤ (Make.collect_errors rs).length → (Make.build_run rs).2 = .aggregate) := by
  refine ⟨rfl, ?_, collect_errors_length rs, ?_, ?_, ?_⟩
  · intro e he
    exact List.mem_filterMap.mpr ⟨.error e, he, rfl⟩
  · intro h
    simp [Make.build_run, h]
  · intro e h
    simp [Make.build_run, h]
  · intro h
    rcases hc : Make.collect_errors rs with _ | ⟨a, _ | ⟨b, l⟩⟩
    · rw [hc] at h; simp at h
    · rw [hc] at h; simp at h
    · simp [Make.build_run, hc]

/-- Witness for C3: a run with two failures raises the aggregate failure
with both failures logged, and a run with exactly one failure re-raises
it. -/
theorem make_build_failure_aggregation_witness :
    (Make.build_run ([.error 1, .ok 0, .error 2] : List (TaskResult ℕ ℕ))).2
        = .aggregate ∧
    1 ∈ (Make.build_run ([.error 1, .ok 0, .error 2] : List (TaskResult ℕ ℕ))).1 ∧
    2 ∈ (Make.build_run ([.error 1, .ok 0, .error 2] : List (TaskResult ℕ ℕ))).1 ∧
    (Make.build_run ([.error 7] : List (TaskResult ℕ ℕ))).2 = .single 7 := by
  refine ⟨(make_build_failure_aggregation _).2.2.2.2.2 (by rfl), ?_, ?_,
    (make_build_failure_aggregation _).2.2.2.2.1 7 (by rfl)⟩
  · exact (make_build_failure_aggregation _).2.1 1 (by simp)
  · exact (make_build_failure_aggregation _).2.1 2 (by simp)


/-! ## C8: Diagnostic serialization round trip -/

theorem Diagnostics.position_round_trip (p : Diagnostics.Position) :
    Diagnostics.Position.parse p.to_json = some p := by
  cases p
  rfl

theorem Diagnostics.range_round_trip (r : Diagnostics.Range) :
    Diagnostics.Range.parse r.to_json = some r := by
  cases r with
  | mk s e =>
      simp [Diagnostics.Range.to_json, Diagnostics.Range.parse,
        Diagnostics.position_round_trip]

theorem Diagnostics.uri_round_trip (u : Diagnostics.Uri) :
    Diagnostics.Uri.parse u.to_json = some u := by
  cases u
  rfl

theorem Diagnostics.severity_round_trip (s : Diagnostics.Severity) :
    Diagnostics.Severity.parse (.str s.value) = some s := by
  cases s <;> rfl

theorem Diagnostics.location_round_trip (l : Diagnostics.Location) :
    Diagnostics.Location.parse l.to_json = some l := by
  cases l with
  | mk u r =>
      simp [Diagnostics.Location.to_json, Diagnostics.Location.parse,
        Diagnostics.uri_round_trip, Diagnostics.range_round_trip]

theorem Diagnostics.related_information_round_trip (ri : Diagnostics.RelatedInformation) :
    Diagnostics.RelatedInformation.parse ri.to_json = some ri := by
  cases ri with
  | mk l m =>
      simp [Diagnostics.RelatedInformation.to_json, Diagnostics.RelatedInformation.parse,
        Diagnostics.location_round_trip]

theorem Diagnostics.related_information_list_round_trip
    (ris : List Diagnostics.RelatedInformation) :
    Diagnostics.RelatedInformation.parse_list (ris.map Diagnostics.RelatedInformation.to_json)
      = some ris := by
  induction ris with
  | nil => rfl
  | cons r rs ih =>
      simp [Diagnostics.RelatedInformation.parse_list,
        Diagnostics.related_information_round_trip, ih]

theorem Diagnostics.code_round_trip (c : Option Diagnostics.DiagCode) :
    Diagnostics.DiagCode.parse (Diagnostics.DiagCode.to_json c) = some c := by
  rcases c with _ | c
  · rfl
  · cases c <;> rfl

/-- C8: serializing any Diagnostic and parsing the serialization back
yields the same Diagnostic (hence equal severity, message, and range), and
the serialized severities are exactly `error`, `warning`, `information`,
`hint`. -/
theorem diagnostic_round_trip_and_severities :
    (∀ d : Diagnostics.Diagnostic, Diagnostics.Diagnostic.parse d.to_json = some d) ∧
    (∀ s : Diagnostics.Severity,
      s.value ∈ (["error", "warning", "information", "hint"] : List String)) ∧
    (∀ v ∈ (["error", "warning", "information", "hint"] : List String),
      ∃ s : Diagnostics.Severity, s.value = v) := by
  refine ⟨?_, ?_, ?_⟩
  · intro d
    cases d with
    | mk m r sev c src ri =>
        rcases src with _ | src <;> rcases ri with _ | ri <;>
          simp [Diagnostics.Diagnostic.to_json, Diagnostics.Diagnostic.parse,
            Diagnostics.range_round_trip, Diagnostics.severity_round_trip,
            Diagnostics.code_round_trip, Diagnostics.related_information_list_round_trip]
  · intro s
    cases s <;> simp [Diagnostics.Severity.value]
  · intro v hv
    simp only [List.mem_cons, List.not_mem_nil, or_false] at hv
    rcases hv with rfl | rfl | rfl | rfl
    exacts [⟨.error, rfl⟩, ⟨.warning, rfl⟩, ⟨.info, rfl⟩, ⟨.hint, rfl⟩]

/-- Witness for C8 at a concrete Diagnostic with all optional fields
populated, and for the severity value `warning`. -/
theorem diagnostic_round_trip_and_severities_witness :
    Diagnostics.Diagnostic.parse
        (Diagnostics.Diagnostic.to_json
          ⟨"undefined reference", ⟨⟨1, 2⟩, ⟨3, 4⟩⟩, .warning, some (.num 5), some "gcc",
            some [⟨⟨⟨"file", "/a/b.cpp", ""⟩, ⟨⟨0, 0⟩, ⟨0, 1⟩⟩⟩, "declared here"⟩]⟩)
      = some ⟨"undefined reference", ⟨⟨1, 2⟩, ⟨3, 4⟩⟩, .warning, some (.num 5), some "gcc",
          some [⟨⟨⟨"file", "/a/b.cpp", ""⟩, ⟨⟨0, 0⟩, ⟨0, 1⟩⟩⟩, "declared here"⟩]⟩ ∧
    ∃ s : Diagnostics.Severity, s.value = "warning" :=
  ⟨diagnostic_round_trip_and_severities.1 _,
    diagnostic_round_trip_and_severities.2.2 ("warning") (by simp)⟩


/-! ## C1: exactly-once concurrent build execution -/

theorem PhaseEvent.arrivals_cons (e : PhaseEvent) (es : List PhaseEvent) :
    PhaseEvent.arrivals (e :: es) = PhaseEvent.arrivals [e] ++ PhaseEvent.arrivals es := by
  cases e <;> simp [PhaseEvent.arrivals]

theorem CachedPhase.step_inv {ε ρ : Type} (o : Except ε ρ) (arr : List ℕ)
    (s : CachedPhase ε ρ) (e : PhaseEvent) (h : CachedPhase.Inv o arr s) :
    CachedPhase.Inv o (arr ++ PhaseEvent.arrivals [e]) (CachedPhase.step o s e) := by
  obtain ⟨h1, h2, h3, h4, h5, h6, h7⟩ := h
  cases e with
  | arrive i =>
      rw [show PhaseEvent.arrivals [PhaseEvent.arrive i] = [i] from rfl]
      rcases h1 with hc | hc
      · by_cases hr : s.running = true
        · have hs : CachedPhase.step o s (.arrive i) = { s with waiters := s.waiters ++ [i] } := by
            simp [CachedPhase.step, hc, hr]
          rw [hs]
          refine ⟨Or.inl hc, h2, ?_, h4, ?_, h6, ?_⟩
          · intro h'
            simp only at h'
            rw [h'] at hr
            simp at hr
          · simp only
            rw [hr]
            cases arr <;> simp
          · simp only
            rw [← List.append_assoc, h7]
        · simp only [Bool.not_eq_true] at hr
          have hs : CachedPhase.step o s (.arrive i)
              = { s with running := true, waiters := [i], execCount := s.execCount + 1 } := by
            simp [CachedPhase.step, hc, hr]
          rw [hs]
          refine ⟨Or.inl hc, ?_, ?_, ?_, ?_, h6, ?_⟩
          · intro h'
            simp only [hc] at h'
            cases h'
          · intro h'
            simp only at h'
            cases h'
          · simp only [hr, hc] at h4
            simp [h4]
          · simp only
            cases arr <;> simp
          · simp only
            have hw : s.waiters = [] := h3 hr
            rw [hw, List.append_nil] at h7
            rw [h7]
      · have hs : CachedPhase.step o s (.arrive i)
            = { s with observed := s.observed ++ [(i, o)] } := by
          simp [CachedPhase.step, hc]
        rw [hs]
        have hrun : s.running = false := h2 (by simp [hc])
        have hw : s.waiters = [] := h3 hrun
        refine ⟨Or.inr hc, h2, h3, h4, ?_, ?_, ?_⟩
        · simp only [hc]
          cases arr <;> simp
        · intro p hp
          rcases List.mem_append.mp hp with hp | hp
          · exact h6 p hp
          · rw [List.mem_singleton.mp hp]
        · simp only [List.map_append, hw]
          rw [hw, List.append_nil] at h7
          simp [h7]
  | complete =>
      rw [show PhaseEvent.arrivals [PhaseEvent.complete] = [] from rfl, List.append_nil]
      by_cases hr : s.running = true
      · have hs : CachedPhase.step o s .complete
            = { s with cache := some o, running := false, waiters := [],
                       observed := s.observed ++ s.waiters.map (fun i => (i, o)) } := by
          simp [CachedPhase.step, hr]
        rw [hs]
        refine ⟨Or.inr rfl, fun _ => rfl, fun _ => rfl, ?_, ?_, ?_, ?_⟩
        · simp only [hr] at h4
          simp [h4]
        · simp only
          rw [hr] at h5
          simpa using h5
        · intro p hp
          rcases List.mem_append.mp hp with hp | hp
          · exact h6 p hp
          · obtain ⟨j, _, rfl⟩ := List.mem_map.mp hp
            rfl
        · simp only [List.map_append, List.map_map, List.append_nil]
          rw [show (Prod.fst ∘ fun i : ℕ => (i, o)) = id from rfl, List.map_id]
          exact h7
      · simp only [Bool.not_eq_true] at hr
        have hs : CachedPhase.step o s .complete = s := by
          simp [CachedPhase.step, hr]
        rw [hs]
        exact ⟨h1, h2, h3, h4, h5, h6, h7⟩

theorem CachedPhase.foldl_inv {ε ρ : Type} (o : Except ε ρ) :
    ∀ (es : List PhaseEvent) (s : CachedPhase ε ρ) (arr : List ℕ),
      CachedPhase.Inv o arr s →
      CachedPhase.Inv o (arr ++ PhaseEvent.arrivals es) (es.foldl (CachedPhase.step o) s) := by
  intro es
  induction es with
  | nil =>
      intro s arr h
      simpa [PhaseEvent.arrivals] using h
  | cons e es ih =>
      intro s arr h
      rw [List.foldl_cons, PhaseEvent.arrivals_cons, ← List.append_assoc]
      exact ih (CachedPhase.step o s e) (arr ++ PhaseEvent.arrivals [e])
        (CachedPhase.step_inv o arr s e h)

theorem CachedPhase.run_inv {ε ρ : Type} (o : Except ε ρ) (es : List PhaseEvent) :
    CachedPhase.Inv o (PhaseEvent.arrivals es) (CachedPhase.run o es) := by
  have hinit : CachedPhase.Inv o [] (CachedPhase.init ε ρ) := by
    refine ⟨Or.inl rfl, ?_, fun _ => rfl, rfl, rfl, ?_, rfl⟩
    · intro h'
      simp [CachedPhase.init] at h'
    · intro p hp
      simp [CachedPhase.init] at hp
  have := CachedPhase.foldl_inv o es (CachedPhase.init ε ρ) [] hinit
  simpa [CachedPhase.run] using this

/-- C1: under any cooperative schedule of N concurrent calls to a
Target's memoized `build` (callers arriving before, during, or after the
single in-flight execution), the build body runs exactly once (not at all
if nobody calls), every caller that has been answered observed that single
execution's outcome — including a raised failure, which is re-raised to
each of them — and the answered callers together with those still awaiting
the shared future are exactly the callers that arrived. -/
theorem build_concurrent_exactly_once (out : Option FileStat) (ds : List Dep)
    (es : List PhaseEvent) :
    (CachedPhase.run (Target.build_phase out ds) es).execCount
        = (if PhaseEvent.arrivals es = [] then 0 else 1) ∧
    (∀ p ∈ (CachedPhase.run (Target.build_phase out ds) es).observed,
        p.2 = Target.build_phase out ds) ∧
    ((CachedPhase.run (Target.build_phase out ds) es).observed.map Prod.fst
        ++ (CachedPhase.run (Target.build_phase out ds) es).waiters
      = PhaseEvent.arrivals es) := by
  obtain ⟨_, _, _, h4, h5, h6, h7⟩ := CachedPhase.run_inv (Target.build_phase out ds) es
  refine ⟨?_, h6, h7⟩
  rw [h4, h5]
  cases harr : PhaseEvent.arrivals es <;> simp

/-- Witness for C1: two callers arrive while a failing file-less build is
in flight, a third after completion; the body runs once and all callers
are accounted for. -/
theorem build_concurrent_exactly_once_witness :
    (CachedPhase.run (Target.build_phase none [])
        [.arrive 0, .arrive 1, .complete, .arrive 2]).execCount = 1 ∧
    (CachedPhase.run (Target.build_phase none [])
          [.arrive 0, .arrive 1, .complete, .arrive 2]).observed.map Prod.fst
        ++ (CachedPhase.run (Target.build_phase none [])
          [.arrive 0, .arrive 1, .complete, .arrive 2]).waiters
      = [0, 1, 2] := by
  have h := build_concurrent_exactly_once none [] [.arrive 0, .arrive 1, .complete, .arrive 2]
  refine ⟨?_, ?_⟩
  · rw [h.1]
    rfl
  · rw [h.2.2]
    rfl

